import Mathlib

/-
Verification of the Tattva fact-checking backend.

Shallow embedding conventions:
* Python floats are modelled as rationals (ℚ); the transcendental
  calibration function (log/exp temperature scaling) is modelled over ℝ.
* Python dict access `d.get(key, default)` on optional keys is modelled by
  Option fields read with `Option.getD default`.
* Fallible code (functions whose Python body can raise an uncaught
  exception) returns `Except String _`; an `.error` value models a raised
  exception propagating out of the function.
* External collaborators (the text-generation oracle and the web-search
  provider) are parameters: each oracle call site is a function returning
  `Except String payload`, where `.error` models the call raising and the
  payload is the already-parsed JSON content (`Option _`, with `none`
  modelling output that fails JSON extraction, which the source catches as
  json.JSONDecodeError).
-/

namespace Tattva

/-! ## Aggregator data model (app/utils/calibration.py)

A claim record as consumed by the scoring functions: a dict with keys
`id`, optionally `prominence` and `evidence_strength`, and a nested
`verdict` dict with keys `label` and `truth_prob_cal`. -/

structure AClaim where
  id : String
  prominence : Option ℚ
  evidence_strength : Option ℚ
  label : String
  truth_prob_cal : ℚ
deriving DecidableEq

/-- A user belief entry: `{"claim_id": ..., "p": ...}` (app/models/input_models.py,
where pydantic constrains `p` to [0,1]). -/
structure Belief where
  claim_id : String
  p : ℚ
deriving DecidableEq

/-- Result dict of `calculate_reality_distance`. -/
structure RealityDistance where
  status : String
  value : ℚ
  notes : String
deriving DecidableEq

/-- np.clip over ℚ: clamp `x` into `[lo, hi]`. -/
def qclip (x lo hi : ℚ) : ℚ := max lo (min hi x)

/-- Per-claim weight `prominence * (0.5 + 0.5 * evidence_strength)` with the
dict-get defaults of the source (`claim.get('prominence', 0.5)`,
`claim.get('evidence_strength', 0.5)`); computed identically in
`calculate_tattva_score` and `calculate_reality_distance`. -/
def claimWeight (c : AClaim) : ℚ :=
  c.prominence.getD 0.5 * (0.5 + 0.5 * c.evidence_strength.getD 0.5)

/-- Lookup in the dict `{b['claim_id']: b['p'] for b in beliefs}`: a Python
dict comprehension keeps the last entry for a duplicated key. -/
def beliefLookup (beliefs : List Belief) (cid : String) : Option ℚ :=
  (beliefs.reverse.find? (fun b => b.claim_id = cid)).map (fun b => b.p)

/-- calculate_tattva_score (app/utils/calibration.py lines 41-88). -/
def calculate_tattva_score (claims : List AClaim) : ℚ :=
  if claims.isEmpty then 0
  else
    let weights := claims.map claimWeight
    let total_weight := weights.sum
    let alpha :=
      if total_weight = 0 then List.replicate claims.length ((1 : ℚ) / claims.length)
      else weights.map (fun w => w / total_weight)
    let base_score := 100 * ((claims.zip alpha).map (fun p => p.2 * p.1.truth_prob_cal)).sum
    let conflict_rate := ((claims.filter (fun c => c.label = "mixed")).length : ℚ) / claims.length
    let thin_evidence_rate :=
      ((claims.filter (fun c => c.evidence_strength.getD 1 < 0.35)).length : ℚ) / claims.length
    let penalty := 100 * (0.4 * conflict_rate + 0.3 * thin_evidence_rate)
    qclip (base_score - penalty) 0 100

/-- Loop body of the matched-deviation accumulation in
`calculate_reality_distance`: running pair of (reality_distance, matched_claims). -/
def rdStep (beliefs : List Belief) (acc : ℚ × ℕ) (p : AClaim × ℚ) : ℚ × ℕ :=
  match beliefLookup beliefs p.1.id with
  | some user_belief => (acc.1 + p.2 * |user_belief - p.1.truth_prob_cal|, acc.2 + 1)
  | none => acc

/-- calculate_reality_distance (app/utils/calibration.py lines 90-140).

When `beliefs` is non-empty and `claims` is empty, the source reaches
`alpha = [1.0 / len(claims)] * len(claims)` (the `total_weight == 0`
branch, since the empty sum is 0) and Python raises ZeroDivisionError
evaluating `1.0 / len(claims)`; the `.error` branch models that raise. -/
def calculate_reality_distance (claims : List AClaim) (beliefs : List Belief) :
    Except String RealityDistance :=
  if beliefs.isEmpty then
    .ok { status := "needs_user_input", value := 0,
          notes := "No user beliefs provided. Create belief sliders to measure Reality Distance." }
  else if claims.isEmpty then
    .error "ZeroDivisionError: float division by zero"
  else
    let weights := claims.map claimWeight
    let total_weight := weights.sum
    let alpha :=
      if total_weight = 0 then List.replicate claims.length ((1 : ℚ) / claims.length)
      else weights.map (fun w => w / total_weight)
    let res := (claims.zip alpha).foldl (rdStep beliefs) (0, 0)
    .ok { status := "ok", value := qclip (100 * res.1) 0 100,
          notes := "Based on " ++ toString res.2 ++ " matched beliefs out of " ++
                   toString claims.length ++ " claims." }

/-- calculate_evidence_strength (app/utils/calibration.py lines 20-39). -/
def calculate_evidence_strength (credibility specificity recency diversity
    modality_align primary_source_bonus : ℚ) : ℚ :=
  0.35 * credibility +
  0.20 * specificity +
  0.15 * recency +
  0.15 * diversity +
  0.10 * modality_align +
  0.05 * primary_source_bonus

/-! ## Domain extraction

Embedding of `_extract_domain`, i.e. of
`re.search(r'https?://(?:www\.)?([^\x2f]+)', url)` returning group 1, or the
whole url when there is no match.  The regex scans left to right for the
first position where the pattern matches; the optional `www.` group
backtracks when consuming it would leave the mandatory `[^/]+` empty. -/

/-- Maximal run of characters other than a slash (regex `[^/]+`, possibly empty here;
emptiness is checked by the caller). -/
def takeDomainChars (l : List Char) : List Char := l.takeWhile (fun ch => ch ≠ '/')

/-- Try to match `https?://(?:www\.)?([^/]+)` anchored at the start of `l`,
returning the captured group. -/
def domainAt (l : List Char) : Option (List Char) :=
  let rest? : Option (List Char) :=
    if l.take 8 = "https://".toList then some (l.drop 8)
    else if l.take 7 = "http://".toList then some (l.drop 7)
    else none
  match rest? with
  | none => none
  | some rest =>
    if rest.take 4 = "www.".toList ∧ takeDomainChars (rest.drop 4) ≠ [] then
      some (takeDomainChars (rest.drop 4))
    else if takeDomainChars rest ≠ [] then some (takeDomainChars rest)
    else none

/-- Scan for the first position where the pattern matches (re.search). -/
def searchDomain : List Char → Option (List Char)
  | [] => none
  | c :: rest =>
    match domainAt (c :: rest) with
    | some d => some d
    | none => searchDomain rest

/-- `_extract_domain` (identical in EvidenceGatherer and VerdictSynthesizer). -/
def extract_domain (url : String) : String :=
  match searchDomain url.toList with
  | some d => String.mk d
  | none => url

/-! ## Evidence bundle strength (app/services/verdict_synthesizer.py lines 88-112) -/

/-- An evidence item as read by `_calculate_evidence_strength`: the dict keys
it accesses, with `credibility`, `specificity`, `recency` read via
`.get(key, 0.5)`. -/
structure EvidenceItem where
  source_url : String
  credibility : Option ℚ
  specificity : Option ℚ
  recency : Option ℚ
deriving DecidableEq

/-- The evidence dict handed from EvidenceGatherer to VerdictSynthesizer. -/
structure EvidenceBundle where
  evidence_items : List EvidenceItem
  overall_assessment : String
  search_successful : Bool
deriving DecidableEq

namespace VerdictSynthesizer

/-- VerdictSynthesizer._calculate_evidence_strength. -/
def calculate_evidence_strength (evidence : EvidenceBundle) : ℚ :=
  let evidence_items := evidence.evidence_items
  if evidence_items.isEmpty then 0.1
  else
    let n : ℚ := evidence_items.length
    let avg_credibility := (evidence_items.map (fun e => e.credibility.getD 0.5)).sum / n
    let avg_specificity := (evidence_items.map (fun e => e.specificity.getD 0.5)).sum / n
    let avg_recency := (evidence_items.map (fun e => e.recency.getD 0.5)).sum / n
    let unique_domains : ℕ :=
      ((evidence_items.map (fun e => extract_domain e.source_url)).dedup).length
    let diversity := min ((unique_domains : ℚ) / 5) 1
    Tattva.calculate_evidence_strength avg_credibility avg_specificity avg_recency
      diversity 0.8 0.5

end VerdictSynthesizer

/-! ## Aggregator, spec side (spec.md section 4.3)

Definitions written from the words of the specification, to be compared
with the source functions above.  Per the spec, the per-claim weight is
`prominence * (0.5 + 0.5 * evidence_strength)` — textually identical to the
source formula `claimWeight`, so that definition is shared; absent dict
fields take the defaults the source applies at each access. -/

/-- Normalized weights per the spec: weights normalized to sum to 1, with a
uniform 1/n weighting if all weights are zero. -/
def specAlpha (claims : List AClaim) : List ℚ :=
  if ∀ c ∈ claims, claimWeight c = 0 then
    List.replicate claims.length ((1 : ℚ) / claims.length)
  else claims.map (fun c => claimWeight c / (claims.map claimWeight).sum)

/-- Tattva Score per the spec: 0 on an empty claim list, otherwise
`clamp(base - penalty, 0, 100)` with `base = 100 * Σ α_i * truth_prob_cal_i`
and `penalty = 100 * (0.4 * conflict_rate + 0.3 * thin_evidence_rate)`. -/
def tattvaScoreSpec (claims : List AClaim) : ℚ :=
  if claims = [] then 0
  else
    let base := 100 * ((claims.zip (specAlpha claims)).map
      (fun p => p.2 * p.1.truth_prob_cal)).sum
    let conflict_rate := ((claims.filter (fun c => c.label = "mixed")).length : ℚ) / claims.length
    let thin_evidence_rate :=
      ((claims.filter (fun c => c.evidence_strength.getD 1 < 0.35)).length : ℚ) / claims.length
    let penalty := 100 * (0.4 * conflict_rate + 0.3 * thin_evidence_rate)
    qclip (base - penalty) 0 100

/-- Weighted absolute belief deviation contributed by one (claim, weight)
pair: claims without a matching belief entry contribute nothing. -/
def matchedDeviation (beliefs : List Belief) (p : AClaim × ℚ) : ℚ :=
  match beliefLookup beliefs p.1.id with
  | some user_belief => p.2 * |user_belief - p.1.truth_prob_cal|
  | none => 0

/-- Reality Distance value per the spec:
`100 * Σ(normalized_weight_i * |user_belief_i - truth_prob_cal_i|)` over only
the claims with a matching belief entry, weights normalized over the full
claim set. -/
def realityDistanceSpecValue (claims : List AClaim) (beliefs : List Belief) : ℚ :=
  100 * ((claims.zip (specAlpha claims)).map (matchedDeviation beliefs)).sum

/-- Number of claims with a matching belief entry. -/
def matchedCount (claims : List AClaim) (beliefs : List Belief) : ℕ :=
  (claims.filter (fun c => (beliefLookup beliefs c.id).isSome)).length

/-! ## List helper lemmas -/

lemma sum_eq_zero_iff_of_nonneg {l : List ℚ} (h : ∀ x ∈ l, 0 ≤ x) :
    l.sum = 0 ↔ ∀ x ∈ l, x = 0 := by
  constructor
  · intro hs x hx
    exact List.all_zero_of_le_zero_le_of_sum_eq_zero h hs hx
  · intro hz
    induction l with
    | nil => rfl
    | cons a t ih =>
      rw [List.sum_cons, hz a (List.mem_cons_self a t),
        ih (fun x hx => h x (List.mem_cons_of_mem a hx))
           (fun x hx => hz x (List.mem_cons_of_mem a hx)), zero_add]

lemma sum_map_div (l : List ℚ) (T : ℚ) : (l.map (fun w => w / T)).sum = l.sum / T := by
  induction l with
  | nil => simp
  | cons a t ih => rw [List.map_cons, List.sum_cons, List.sum_cons, ih, add_div]

/-- The source normalization (`total_weight == 0` test) agrees with the spec
normalization (all-weights-zero test) whenever the weights are nonnegative. -/
lemma code_alpha_eq_spec (claims : List AClaim)
    (h : ∀ c ∈ claims, 0 ≤ claimWeight c) :
    (if (claims.map claimWeight).sum = 0 then
        List.replicate claims.length ((1 : ℚ) / claims.length)
      else (claims.map claimWeight).map (fun w => w / (claims.map claimWeight).sum)) =
      specAlpha claims := by
  have hnn : ∀ x ∈ claims.map claimWeight, 0 ≤ x := by
    intro x hx
    obtain ⟨c, hc, rfl⟩ := List.mem_map.mp hx
    exact h c hc
  by_cases hs : (claims.map claimWeight).sum = 0
  · have hall : ∀ c ∈ claims, claimWeight c = 0 := by
      intro c hc
      exact (sum_eq_zero_iff_of_nonneg hnn).mp hs _ (List.mem_map_of_mem claimWeight hc)
    rw [if_pos hs, specAlpha, if_pos hall]
  · have hall : ¬ ∀ c ∈ claims, claimWeight c = 0 := by
      intro hall
      exact hs ((sum_eq_zero_iff_of_nonneg hnn).mpr (by
        intro x hx
        obtain ⟨c, hc, rfl⟩ := List.mem_map.mp hx
        exact hall c hc))
    rw [if_neg hs, specAlpha, if_neg hall, List.map_map]
    rfl

lemma claimWeight_nonneg {c : AClaim}
    (hp : 0 ≤ c.prominence.getD 0.5) (he : 0 ≤ c.evidence_strength.getD 0.5) :
    0 ≤ claimWeight c := by
  have : (0 : ℚ) ≤ 0.5 + 0.5 * c.evidence_strength.getD 0.5 := by
    nlinarith
  exact mul_nonneg hp this

/-- C2: for every list of claims whose prominence and evidence-strength
values are nonnegative (the data model constrains both to [0,1]),
calculate_tattva_score returns 0.0 on the empty list and otherwise
clamp(base - penalty, 0, 100) with weight = prominence * (0.5 + 0.5 *
evidence_strength), weights normalized to sum to 1 (uniform 1/n when all
weights are zero), base = 100 * weighted sum of truth_prob_cal, and
penalty = 100 * (0.4 * mixed fraction + 0.3 * thin-evidence fraction). -/
theorem calculate_tattva_score_spec (claims : List AClaim)
    (hp : ∀ c ∈ claims, 0 ≤ c.prominence.getD 0.5)
    (he : ∀ c ∈ claims, 0 ≤ c.evidence_strength.getD 0.5) :
    calculate_tattva_score claims = tattvaScoreSpec claims := by
  have hw : ∀ c ∈ claims, 0 ≤ claimWeight c :=
    fun c hc => claimWeight_nonneg (hp c hc) (he c hc)
  have halpha := code_alpha_eq_spec claims hw
  rcases claims with _ | ⟨a, t⟩
  · rfl
  · simp only [calculate_tattva_score, tattvaScoreSpec]
    rw [if_neg (by simp : ¬(((a :: t : List AClaim)).isEmpty = true)),
      if_neg (List.cons_ne_nil a t), halpha]

theorem calculate_tattva_score_spec_witness :
    calculate_tattva_score [⟨"c1", some (4/5), some (9/10), "true", 7/10⟩] =
      tattvaScoreSpec [⟨"c1", some (4/5), some (9/10), "true", 7/10⟩] :=
  calculate_tattva_score_spec _
    (by simp only [List.forall_mem_singleton]; norm_num)
    (by simp only [List.forall_mem_singleton]; norm_num)

/-- C6: for every evidence bundle, the computed evidence strength is exactly
0.1 when the item list is empty and otherwise the fixed weighted sum
0.35 * average credibility + 0.20 * average specificity + 0.15 * average
recency + 0.15 * min(distinct source domains / 5, 1) + 0.10 * 0.8 (default
modality alignment) + 0.05 * 0.5 (default primary-source bonus). -/
theorem evidence_strength_formula (ev : EvidenceBundle) :
    VerdictSynthesizer.calculate_evidence_strength ev =
      if ev.evidence_items = [] then 0.1
      else
        0.35 * ((ev.evidence_items.map (fun e => e.credibility.getD 0.5)).sum /
          (ev.evidence_items.length : ℚ)) +
        0.20 * ((ev.evidence_items.map (fun e => e.specificity.getD 0.5)).sum /
          (ev.evidence_items.length : ℚ)) +
        0.15 * ((ev.evidence_items.map (fun e => e.recency.getD 0.5)).sum /
          (ev.evidence_items.length : ℚ)) +
        0.15 * min ((((ev.evidence_items.map
          (fun e => extract_domain e.source_url)).dedup).length : ℚ) / 5) 1 +
        0.10 * 0.8 +
        0.05 * 0.5 := by
  by_cases h : ev.evidence_items = []
  · simp [VerdictSynthesizer.calculate_evidence_strength, h]
  · simp only [VerdictSynthesizer.calculate_evidence_strength,
      Tattva.calculate_evidence_strength, if_neg h,
      if_neg (by simpa [List.isEmpty_iff] using h :
        ¬(ev.evidence_items.isEmpty = true))]

/-- C9: when the beliefs list is non-empty, calling
calculate_reality_distance with an empty claims list raises an uncaught
ZeroDivisionError instead of returning a result, and the
needs_user_input sentinel is only ever returned when beliefs is empty. -/
theorem reality_distance_empty_claims_raises :
    (∀ beliefs : List Belief, beliefs ≠ [] →
      calculate_reality_distance [] beliefs =
        .error "ZeroDivisionError: float division by zero") ∧
    (∀ (claims : List AClaim) (beliefs : List Belief) (r : RealityDistance),
      calculate_reality_distance claims beliefs = .ok r →
      r.status = "needs_user_input" → beliefs = []) := by
  constructor
  · intro beliefs hb
    have h1 : beliefs.isEmpty = false := by
      cases beliefs with
      | nil => exact absurd rfl hb
      | cons b bs => rfl
    simp [calculate_reality_distance, h1]
  · intro claims beliefs r hok hstatus
    cases beliefs with
    | nil => rfl
    | cons b bs =>
      exfalso
      unfold calculate_reality_distance at hok
      rw [if_neg (by simp : ¬(((b :: bs : List Belief)).isEmpty = true))] at hok
      cases claims with
      | nil => exact Except.noConfusion hok
      | cons a t =>
        rw [if_neg (by simp : ¬(((a :: t : List AClaim)).isEmpty = true))] at hok
        simp only [Except.ok.injEq] at hok
        rw [← hok] at hstatus
        simp at hstatus

theorem reality_distance_empty_claims_witness :
    calculate_reality_distance [] [{ claim_id := "c1", p := 0.5 }] =
      .error "ZeroDivisionError: float division by zero" :=
  reality_distance_empty_claims_raises.1 _ (by decide)

/-! ## Lemmas for the Reality Distance computation -/

lemma beliefLookup_mem {beliefs : List Belief} {cid : String} {x : ℚ}
    (h : beliefLookup beliefs cid = some x) : ∃ b ∈ beliefs, b.p = x := by
  unfold beliefLookup at h
  obtain ⟨b, hb, hbx⟩ := Option.map_eq_some'.mp h
  exact ⟨b, List.mem_reverse.mp (List.mem_of_find?_eq_some hb), hbx⟩

lemma foldl_rdStep_eq (beliefs : List Belief) :
    ∀ (l : List (AClaim × ℚ)) (a : ℚ) (k : ℕ),
      l.foldl (rdStep beliefs) (a, k) =
        (a + (l.map (matchedDeviation beliefs)).sum,
         k + (l.filter (fun p => (beliefLookup beliefs p.1.id).isSome)).length)
  | [], a, k => by simp
  | p :: rest, a, k => by
    cases h : beliefLookup beliefs p.1.id with
    | none =>
      rw [List.foldl_cons, show rdStep beliefs (a, k) p = (a, k) by simp [rdStep, h],
        foldl_rdStep_eq beliefs rest a k]
      simp [matchedDeviation, h, List.filter_cons]
    | some ub =>
      rw [List.foldl_cons,
        show rdStep beliefs (a, k) p = (a + p.2 * |ub - p.1.truth_prob_cal|, k + 1) by
          simp [rdStep, h],
        foldl_rdStep_eq beliefs rest _ _]
      simp only [matchedDeviation, h, List.map_cons, List.sum_cons, List.filter_cons,
        Option.isSome_some, if_pos, List.length_cons, Prod.mk.injEq]
      exact ⟨by ring, by omega⟩

lemma zip_filter_matched_length (beliefs : List Belief) :
    ∀ (claims : List AClaim) (alpha : List ℚ), claims.length = alpha.length →
      ((claims.zip alpha).filter (fun p => (beliefLookup beliefs p.1.id).isSome)).length =
        matchedCount claims beliefs
  | [], _, _ => by simp [matchedCount]
  | c :: t, [], h => by simp at h
  | c :: t, a :: s, h => by
    have h' : t.length = s.length := by simpa using h
    have ih := zip_filter_matched_length beliefs t s h'
    simp only [matchedCount] at ih ⊢
    simp only [List.zip_cons_cons, List.filter_cons]
    cases hP : (beliefLookup beliefs c.id).isSome <;> simp [hP, ih]

lemma matched_sum_bounds (beliefs : List Belief)
    (hbel : ∀ b ∈ beliefs, 0 ≤ b.p ∧ b.p ≤ 1) :
    ∀ (claims : List AClaim) (alpha : List ℚ),
      (∀ x ∈ alpha, 0 ≤ x) →
      (∀ c ∈ claims, 0 ≤ c.truth_prob_cal ∧ c.truth_prob_cal ≤ 1) →
      0 ≤ ((claims.zip alpha).map (matchedDeviation beliefs)).sum ∧
      ((claims.zip alpha).map (matchedDeviation beliefs)).sum ≤ alpha.sum
  | [], alpha, ha, _ => by
    simpa using List.sum_nonneg ha
  | _ :: _, [], _, _ => by simp
  | c :: cs, a :: as, ha, hc => by
    obtain ⟨ih0, ih1⟩ := matched_sum_bounds beliefs hbel cs as
      (fun x hx => ha x (List.mem_cons_of_mem _ hx))
      (fun d hd => hc d (List.mem_cons_of_mem _ hd))
    have ha0 : 0 ≤ a := ha a (List.mem_cons_self _ _)
    have hterm : 0 ≤ matchedDeviation beliefs (c, a) ∧ matchedDeviation beliefs (c, a) ≤ a := by
      unfold matchedDeviation
      cases h : beliefLookup beliefs c.id with
      | none => simpa using ha0
      | some ub =>
        obtain ⟨b, hbmem, hbx⟩ := beliefLookup_mem h
        obtain ⟨hub0, hub1⟩ := hbx ▸ hbel b hbmem
        obtain ⟨htp0, htp1⟩ := hc c (List.mem_cons_self _ _)
        have habs : |ub - c.truth_prob_cal| ≤ 1 :=
          abs_le.mpr ⟨by linarith, by linarith⟩
        exact ⟨mul_nonneg ha0 (abs_nonneg _), mul_le_of_le_one_right ha0 habs⟩
    simp only [List.zip_cons_cons, List.map_cons, List.sum_cons]
    exact ⟨add_nonneg hterm.1 ih0, add_le_add hterm.2 ih1⟩

lemma specAlpha_length (claims : List AClaim) : (specAlpha claims).length = claims.length := by
  unfold specAlpha
  split <;> simp

lemma specAlpha_nonneg (claims : List AClaim) (h : ∀ c ∈ claims, 0 ≤ claimWeight c) :
    ∀ x ∈ specAlpha claims, 0 ≤ x := by
  have hS : 0 ≤ (claims.map claimWeight).sum := by
    refine List.sum_nonneg ?_
    intro y hy
    obtain ⟨d, hd, rfl⟩ := List.mem_map.mp hy
    exact h d hd
  unfold specAlpha
  split
  · intro x hx
    rw [List.eq_of_mem_replicate hx]
    positivity
  · intro x hx
    obtain ⟨c, hc, rfl⟩ := List.mem_map.mp hx
    exact div_nonneg (h c hc) hS

lemma specAlpha_sum (claims : List AClaim) (hne : claims ≠ [])
    (h : ∀ c ∈ claims, 0 ≤ claimWeight c) : (specAlpha claims).sum = 1 := by
  have hnn : ∀ x ∈ claims.map claimWeight, 0 ≤ x := by
    intro x hx
    obtain ⟨c, hc, rfl⟩ := List.mem_map.mp hx
    exact h c hc
  have hn : (claims.length : ℚ) ≠ 0 := by
    have : claims.length ≠ 0 := by simpa [List.length_eq_zero] using hne
    exact_mod_cast this
  by_cases hall : ∀ c ∈ claims, claimWeight c = 0
  · rw [specAlpha, if_pos hall, List.sum_replicate, nsmul_eq_mul]
    field_simp
  · have hS : (claims.map claimWeight).sum ≠ 0 := by
      intro hs
      exact hall (fun c hc =>
        (sum_eq_zero_iff_of_nonneg hnn).mp hs _ (List.mem_map_of_mem claimWeight hc))
    rw [specAlpha, if_neg hall,
      show claims.map (fun c => claimWeight c / (claims.map claimWeight).sum) =
          (claims.map claimWeight).map (fun w => w / (claims.map claimWeight).sum) by
        rw [List.map_map]; rfl,
      sum_map_div, div_self hS]

lemma qclip_eq_self {x lo hi : ℚ} (h1 : lo ≤ x) (h2 : x ≤ hi) : qclip x lo hi = x := by
  unfold qclip
  rw [min_eq_right h2, max_eq_right h1]

/-- C3: for non-empty beliefs and non-empty claims with data-model-conforming
values (prominence and evidence strength nonnegative, probabilities in
[0,1]), calculate_reality_distance returns status "ok" with value
100 * Σ over matched claims of normalized_weight * |user_belief -
truth_prob_cal| (weights normalized over the full claim set, so the weight
mass of unmatched claims is lost) and notes reporting the matched count out
of the total claim count. -/
theorem calculate_reality_distance_ok (claims : List AClaim) (beliefs : List Belief)
    (hc : claims ≠ []) (hb : beliefs ≠ [])
    (hp : ∀ c ∈ claims, 0 ≤ c.prominence.getD 0.5)
    (he : ∀ c ∈ claims, 0 ≤ c.evidence_strength.getD 0.5)
    (ht : ∀ c ∈ claims, 0 ≤ c.truth_prob_cal ∧ c.truth_prob_cal ≤ 1)
    (hbp : ∀ b ∈ beliefs, 0 ≤ b.p ∧ b.p ≤ 1) :
    calculate_reality_distance claims beliefs = .ok
      { status := "ok",
        value := realityDistanceSpecValue claims beliefs,
        notes := "Based on " ++ toString (matchedCount claims beliefs) ++
                 " matched beliefs out of " ++ toString claims.length ++ " claims." } := by
  have hw : ∀ c ∈ claims, 0 ≤ claimWeight c :=
    fun c hcm => claimWeight_nonneg (hp c hcm) (he c hcm)
  have halpha := code_alpha_eq_spec claims hw
  have hbe : ¬(beliefs.isEmpty = true) := by
    cases beliefs with
    | nil => exact absurd rfl hb
    | cons b bs => simp
  have hce : ¬(claims.isEmpty = true) := by
    cases claims with
    | nil => exact absurd rfl hc
    | cons a t => simp
  obtain ⟨hs0, hs1⟩ := matched_sum_bounds beliefs hbp claims (specAlpha claims)
    (specAlpha_nonneg claims hw) ht
  have hsum1 : (specAlpha claims).sum = 1 := specAlpha_sum claims hc hw
  have hS1 : ((claims.zip (specAlpha claims)).map (matchedDeviation beliefs)).sum ≤ 1 :=
    hs1.trans_eq hsum1
  simp only [calculate_reality_distance]
  rw [if_neg hbe, if_neg hce, halpha,
    foldl_rdStep_eq beliefs (claims.zip (specAlpha claims)) 0 0]
  simp only [zero_add]
  rw [zip_filter_matched_length beliefs claims (specAlpha claims) (specAlpha_length claims).symm,
    qclip_eq_self (by positivity) (by linarith)]
  rfl

theorem calculate_reality_distance_ok_witness :
    calculate_reality_distance [⟨"c1", some (4/5), some (9/10), "true", 7/10⟩]
        [{ claim_id := "c1", p := 9/10 }] = .ok
      { status := "ok",
        value := realityDistanceSpecValue [⟨"c1", some (4/5), some (9/10), "true", 7/10⟩]
          [{ claim_id := "c1", p := 9/10 }],
        notes := "Based on " ++
          toString (matchedCount [⟨"c1", some (4/5), some (9/10), "true", 7/10⟩]
            [{ claim_id := "c1", p := 9/10 }]) ++
          " matched beliefs out of " ++
          toString ([(⟨"c1", some (4/5), some (9/10), "true", 7/10⟩ : AClaim)]).length ++
          " claims." } :=
  calculate_reality_distance_ok _ _ (by simp) (by simp)
    (by simp only [List.forall_mem_singleton]; norm_num)
    (by simp only [List.forall_mem_singleton]; norm_num)
    (by simp only [List.forall_mem_singleton]; norm_num)
    (by simp only [List.forall_mem_singleton]; norm_num)

/-! ## Calibration (app/utils/calibration.py lines 5-18)

calibrate_probability applies temperature scaling in logit space; its
log/exp arithmetic is modelled over ℝ. -/

/-- np.clip over ℝ. -/
noncomputable def clip (x lo hi : ℝ) : ℝ := max lo (min hi x)

/-- The logistic function `1 / (1 + e^(-x))`, as written inline in the
source (`1 / (1 + np.exp(-calibrated_logit))`). -/
noncomputable def sigmoid (x : ℝ) : ℝ := 1 / (1 + Real.exp (-x))

/-- calibrate_probability: clamp the input into [0.005, 0.995], compute the
logit, divide by the temperature, apply the sigmoid, clamp the result. -/
noncomputable def calibrate_probability (prob : ℝ) (temperature : ℝ) : ℝ :=
  let p := clip prob 0.005 0.995
  let logit := Real.log (p / (1 - p))
  let calibrated_logit := logit / temperature
  let calibrated_prob := sigmoid calibrated_logit
  clip calibrated_prob 0.005 0.995

lemma lo_le_clip (x lo hi : ℝ) : lo ≤ clip x lo hi := le_max_left _ _

lemma clip_le_hi (x lo hi : ℝ) (h : lo ≤ hi) : clip x lo hi ≤ hi :=
  max_le h (min_le_left _ _)

/-- Clamping into [0.005, 0.995] never moves a value away from 1/2. -/
lemma clip_contract (x : ℝ) : |clip x 0.005 0.995 - 1/2| ≤ |x - 1/2| := by
  unfold clip
  rcases le_total x 0.005 with h | h
  · rw [min_eq_right (by linarith : x ≤ (0.995:ℝ)), max_eq_left h,
      abs_of_nonpos (by norm_num : (0.005:ℝ) - 1/2 ≤ 0),
      abs_of_nonpos (by linarith : x - 1/2 ≤ 0)]
    linarith
  · rcases le_total x 0.995 with h2 | h2
    · rw [min_eq_right h2, max_eq_right h]
    · rw [min_eq_left h2, max_eq_right (by norm_num : (0.005:ℝ) ≤ 0.995),
        abs_of_nonneg (by norm_num : (0:ℝ) ≤ 0.995 - 1/2),
        abs_of_nonneg (by linarith : (0:ℝ) ≤ x - 1/2)]
      linarith

lemma sigmoid_mono {x y : ℝ} (h : x ≤ y) : sigmoid x ≤ sigmoid y := by
  unfold sigmoid
  have h1 : (0:ℝ) < 1 + Real.exp (-y) := by positivity
  apply one_div_le_one_div_of_le h1
  have := Real.exp_le_exp.mpr (neg_le_neg h)
  linarith

lemma sigmoid_zero : sigmoid 0 = 1/2 := by
  unfold sigmoid
  rw [neg_zero, Real.exp_zero]
  norm_num

/-- The sigmoid inverts the logit on (0, 1). -/
lemma sigmoid_logit {q : ℝ} (h0 : 0 < q) (h1 : q < 1) :
    sigmoid (Real.log (q / (1 - q))) = q := by
  have hq : (0:ℝ) < q / (1 - q) := div_pos h0 (by linarith)
  unfold sigmoid
  rw [← Real.log_inv, Real.exp_log (by positivity), inv_div]
  have hq0 : q ≠ 0 := ne_of_gt h0
  field_simp

/-- Dividing the logit by a temperature greater than 1 moves the sigmoid
value toward 1/2. -/
lemma sigmoid_contract {L t : ℝ} (ht : 1 < t) :
    |sigmoid (L / t) - 1/2| ≤ |sigmoid L - 1/2| := by
  have ht0 : (0:ℝ) < t := by linarith
  rcases le_or_lt 0 L with hL | hL
  · have h1 : 0 ≤ L / t := div_nonneg hL ht0.le
    have h2 : L / t ≤ L := div_le_self hL ht.le
    have m1 : (1:ℝ)/2 ≤ sigmoid (L / t) := by
      rw [← sigmoid_zero]
      exact sigmoid_mono h1
    have m2 : sigmoid (L / t) ≤ sigmoid L := sigmoid_mono h2
    rw [abs_of_nonneg (by linarith), abs_of_nonneg (by linarith)]
    linarith
  · have h2 : L ≤ L / t := by
      rw [le_div_iff₀ ht0]
      nlinarith
    have h1 : L / t ≤ 0 := by
      apply div_nonpos_iff.mpr
      right
      exact ⟨hL.le, ht0.le⟩
    have m1 : sigmoid L ≤ sigmoid (L / t) := sigmoid_mono h2
    have m2 : sigmoid (L / t) ≤ 1/2 := by
      rw [← sigmoid_zero]
      exact sigmoid_mono h1
    rw [abs_of_nonpos (by linarith), abs_of_nonpos (by linarith)]
    linarith

/-- C5: for every probability and every temperature above 1, temperature
scaling moves the calibrated probability toward 0.5, never away from it. -/
theorem calibrate_pulls_toward_half (p t : ℝ) (ht : 1 < t) :
    |calibrate_probability p t - 1/2| ≤ |p - 1/2| := by
  have hq0 : (0.005:ℝ) ≤ clip p 0.005 0.995 := lo_le_clip _ _ _
  have hq1 : clip p 0.005 0.995 ≤ 0.995 := clip_le_hi _ _ _ (by norm_num)
  have h0 : (0:ℝ) < clip p 0.005 0.995 := by linarith
  have h1 : clip p 0.005 0.995 < 1 := by linarith
  calc |calibrate_probability p t - 1/2|
      = |clip (sigmoid (Real.log (clip p 0.005 0.995 / (1 - clip p 0.005 0.995)) / t))
          0.005 0.995 - 1/2| := rfl
    _ ≤ |sigmoid (Real.log (clip p 0.005 0.995 / (1 - clip p 0.005 0.995)) / t) - 1/2| :=
        clip_contract _
    _ ≤ |sigmoid (Real.log (clip p 0.005 0.995 / (1 - clip p 0.005 0.995))) - 1/2| :=
        sigmoid_contract ht
    _ = |clip p 0.005 0.995 - 1/2| := by rw [sigmoid_logit h0 h1]
    _ ≤ |p - 1/2| := clip_contract p

theorem calibrate_pulls_toward_half_witness :
    |calibrate_probability 0.9 1.45 - 1/2| ≤ |(0.9:ℝ) - 1/2| :=
  calibrate_pulls_toward_half 0.9 1.45 (by norm_num)

/-- C7: for every input probability in (0,1) and temperature above 0, the
calibrated output lies within [0.005, 0.995]. -/
theorem calibrate_output_bounded (p t : ℝ) (_hp0 : 0 < p) (_hp1 : p < 1) (_ht : 0 < t) :
    0.005 ≤ calibrate_probability p t ∧ calibrate_probability p t ≤ 0.995 := by
  unfold calibrate_probability
  exact ⟨lo_le_clip _ _ _, clip_le_hi _ _ _ (by norm_num)⟩

theorem calibrate_output_bounded_witness :
    0.005 ≤ calibrate_probability 0.5 1 ∧ calibrate_probability 0.5 1 ≤ 0.995 :=
  calibrate_output_bounded 0.5 1 (by norm_num) (by norm_num) (by norm_num)

/-! ## Per-claim pipeline and orchestrator

Embedding of QueryPlanner.create_query_plan, EvidenceGatherer.gather_evidence,
VerdictSynthesizer.synthesize_verdict and the per-claim loop of
TattvaAgent.process (app/agents/tattva_agent.py lines 79-115).  Each
external call site (LLM `chain.invoke`, Tavily `search.invoke`) is a
parameter returning `Except String _`: `.error` models the call raising an
exception; for LLM calls the `.ok` payload is the parse result of the
response text, with `none` modelling a json.JSONDecodeError (the only
failure each stage catches).  Search results are modelled post
`_parse_tavily_results` normalization as `{title, link, snippet}` records.
The Supabase logging side channel swallows its own failures
(supabase_logger._insert_log) and never alters the data flow, so it is
omitted. -/

/-- A claim dict as the pipeline threads it (the fields the loop itself
reads; the remaining extraction fields only feed oracle prompts). -/
structure Claim where
  id : String
  text : String
deriving DecidableEq

/-- A query-plan entry; the pipeline reads only `query_item['query']`. -/
structure QueryItem where
  query : String
deriving DecidableEq

/-- A normalized Tavily search result. -/
structure SearchResult where
  title : String
  link : String
  snippet : String
deriving DecidableEq

/-- Parsed payload of the evidence-evaluation oracle response. -/
structure EvidenceEvaluation where
  evidence_items : List EvidenceItem
  overall_assessment : String
deriving DecidableEq

/-- Modalities-check sub-dict of a verdict. -/
structure ModalitiesCheck where
  ooc_risk : Bool
  notes : String
deriving DecidableEq

/-- Parsed `result.get('verdict', {})` of the verdict-synthesis oracle
response: `truth_prob` is read with `.get('truth_prob', 0.5)`. -/
structure VerdictJson where
  label : String
  truth_prob : Option ℚ
  explanation : String
  citations : List String
  gaps : List String
  modalities_check : ModalitiesCheck
deriving DecidableEq

/-- A verdict after synthesis: the parsed fields plus the derived
`truth_prob_cal` (a real, since calibration is transcendental). -/
structure Verdict where
  label : String
  truth_prob : Option ℚ
  truth_prob_cal : ℝ
  explanation : String
  citations : List String
  gaps : List String
  modalities_check : ModalitiesCheck

/-- Return value of synthesize_verdict. -/
structure VerdictResult where
  verdict : Verdict
  evidence_strength : ℚ

/-- The external collaborators, one function per call site. -/
structure Oracles where
  planLLM : Claim → Except String (Option (List QueryItem))
  search : String → Except String (List SearchResult)
  evalLLM : Claim → List SearchResult → Except String (Option EvidenceEvaluation)
  verdictLLM : Claim → EvidenceBundle → Except String (Option VerdictJson)

/-- QueryPlanner.create_query_plan: invoke the oracle; a JSON parse failure
is caught and yields an empty plan, an exception from the call propagates. -/
def create_query_plan (o : Oracles) (claim : Claim) : Except String (List QueryItem) :=
  match o.planLLM claim with
  | .error e => .error e
  | .ok parsed => .ok (parsed.getD [])

/-- Domain dedup step of gather_evidence: a result is kept while fewer than
2 results of the same source domain have been kept (`domains_seen`). -/
def dedupStep (acc : List SearchResult) (r : SearchResult) : List SearchResult :=
  if (acc.filter (fun x => extract_domain x.link = extract_domain r.link)).length < 2
  then acc ++ [r] else acc

/-- EvidenceGatherer.gather_evidence: issue up to 6 queries, catching and
skipping each failing search call; with no results at all, return the
no-evidence bundle; otherwise evaluate via the oracle (whose prompt holds
the first 10 results), substituting the fallback evaluation on a parse
failure. -/
def gather_evidence (o : Oracles) (claim : Claim) (query_plan : List QueryItem) :
    Except String EvidenceBundle :=
  let all_results := (query_plan.take 6).foldl
    (fun acc q =>
      match o.search q.query with
      | .error _ => acc
      | .ok results => results.foldl dedupStep acc) []
  if all_results.isEmpty then
    .ok { evidence_items := [], overall_assessment := "No evidence found",
          search_successful := false }
  else
    match o.evalLLM claim (all_results.take 10) with
    | .error e => .error e
    | .ok parsed =>
      let ev := parsed.getD
        { evidence_items := [], overall_assessment := "Failed to evaluate evidence" }
      .ok { evidence_items := ev.evidence_items,
            overall_assessment := ev.overall_assessment,
            search_successful := true }

/-- VerdictSynthesizer.synthesize_verdict: invoke the oracle; on a parsed
verdict, attach the calibrated probability and the bundle evidence
strength; on a JSON parse failure return the fixed fallback; an exception
from the call propagates. -/
noncomputable def synthesize_verdict (o : Oracles) (calibration_temp : ℝ) (claim : Claim)
    (evidence : EvidenceBundle) : Except String VerdictResult :=
  match o.verdictLLM claim evidence with
  | .error e => .error e
  | .ok (some vj) =>
    .ok { verdict :=
            { label := vj.label, truth_prob := vj.truth_prob,
              truth_prob_cal :=
                calibrate_probability ((vj.truth_prob.getD 0.5 : ℚ) : ℝ) calibration_temp,
              explanation := vj.explanation, citations := vj.citations,
              gaps := vj.gaps, modalities_check := vj.modalities_check },
          evidence_strength := VerdictSynthesizer.calculate_evidence_strength evidence }
  | .ok none =>
    .ok { verdict :=
            { label := "unverified", truth_prob := some 0.5,
              truth_prob_cal := calibrate_probability 0.5 calibration_temp,
              explanation := "Unable to synthesize verdict from available evidence.",
              citations := [], gaps := ["Evidence evaluation failed"],
              modalities_check := { ooc_risk := false, notes := "No modality check performed" } },
          evidence_strength := 0.1 }

/-- A claim after the three pipeline stages, as appended to
`processed_claims`. -/
structure ProcessedClaim where
  claim : Claim
  query_plan : List QueryItem
  verdict : Verdict
  evidence_strength : ℚ

/-- One iteration of the per-claim loop of TattvaAgent.process: query
planning, evidence gathering, verdict synthesis.  There is no per-claim
exception handler in the source: any `.error` propagates. -/
noncomputable def processClaim (o : Oracles) (calibration_temp : ℝ) (claim : Claim) :
    Except String ProcessedClaim := do
  let query_plan ← create_query_plan o claim
  let evidence ← gather_evidence o claim query_plan
  let vr ← synthesize_verdict o calibration_temp claim evidence
  pure { claim := claim, query_plan := query_plan, verdict := vr.verdict,
         evidence_strength := vr.evidence_strength }

/-- The `for i, claim in enumerate(claims)` loop of TattvaAgent.process:
claims are processed in order inside one try block whose handler logs and
re-raises, so the first propagating exception aborts the whole loop. -/
noncomputable def processAllClaims (o : Oracles) (calibration_temp : ℝ) :
    List Claim → Except String (List ProcessedClaim)
  | [] => .ok []
  | c :: cs => do
    let pc ← processClaim o calibration_temp c
    let rest ← processAllClaims o calibration_temp cs
    pure (pc :: rest)

/-- Boolean success test on an Except value. -/
def isOkE {ε α : Type} : Except ε α → Bool
  | .ok _ => true
  | .error _ => false

/-- Settings.CALIBRATION_TEMPERATURE default (app/config.py). -/
noncomputable def CALIBRATION_TEMPERATURE : ℝ := 1.45

lemma bindE_ok {ε α β : Type} (a : α) (f : α → Except ε β) :
    (Except.ok a >>= f : Except ε β) = f a := rfl

lemma pureE {ε α : Type} (a : α) : (pure a : Except ε α) = Except.ok a := rfl

/-- C4: whenever the verdict-synthesis oracle output cannot be parsed as
JSON, synthesize_verdict returns exactly the default fallback: label
"unverified", truth_prob 0.5, truth_prob_cal = calibrate(0.5) at the
configured temperature, an explanation noting the failure, empty citations,
the single gap entry "Evidence evaluation failed", and evidence_strength
exactly 0.1. -/
theorem synthesize_verdict_fallback_on_parse_failure (o : Oracles) (t : ℝ)
    (claim : Claim) (evidence : EvidenceBundle)
    (h : o.verdictLLM claim evidence = .ok none) :
    synthesize_verdict o t claim evidence = .ok
      { verdict :=
          { label := "unverified", truth_prob := some 0.5,
            truth_prob_cal := calibrate_probability 0.5 t,
            explanation := "Unable to synthesize verdict from available evidence.",
            citations := [], gaps := ["Evidence evaluation failed"],
            modalities_check := { ooc_risk := false, notes := "No modality check performed" } },
        evidence_strength := 0.1 } := by
  unfold synthesize_verdict
  rw [h]

/-- An oracle assignment whose searches all raise and whose LLM responses
all come back as unparseable text (parse result `none`). -/
def parseFailOracles : Oracles where
  planLLM := fun _ => .ok (some [])
  search := fun _ => .error "search down"
  evalLLM := fun _ _ => .ok none
  verdictLLM := fun _ _ => .ok none

def claimOne : Claim := { id := "c1", text := "The sky is blue." }

def claimTwo : Claim := { id := "c2", text := "Water boils at 100 C." }

def noEvidenceBundle : EvidenceBundle :=
  { evidence_items := [], overall_assessment := "No evidence found",
    search_successful := false }

theorem synthesize_verdict_fallback_witness :
    synthesize_verdict parseFailOracles CALIBRATION_TEMPERATURE claimOne noEvidenceBundle = .ok
      { verdict :=
          { label := "unverified", truth_prob := some 0.5,
            truth_prob_cal := calibrate_probability 0.5 CALIBRATION_TEMPERATURE,
            explanation := "Unable to synthesize verdict from available evidence.",
            citations := [], gaps := ["Evidence evaluation failed"],
            modalities_check := { ooc_risk := false, notes := "No modality check performed" } },
        evidence_strength := 0.1 } :=
  synthesize_verdict_fallback_on_parse_failure parseFailOracles CALIBRATION_TEMPERATURE
    claimOne noEvidenceBundle rfl

lemma foldl_search_all_fail (o : Oracles) :
    ∀ (l : List QueryItem) (acc : List SearchResult),
      (∀ q ∈ l, ∃ e, o.search q.query = .error e) →
      l.foldl (fun acc q =>
        match o.search q.query with
        | .error _ => acc
        | .ok results => results.foldl dedupStep acc) acc = acc
  | [], _, _ => rfl
  | q :: rest, acc, h => by
    obtain ⟨e, he⟩ := h q (List.mem_cons_self _ _)
    rw [List.foldl_cons,
      show (match o.search q.query with
        | .error _ => acc
        | .ok results => results.foldl dedupStep acc) = acc by rw [he]]
    exact foldl_search_all_fail o rest acc (fun q' hq' => h q' (List.mem_cons_of_mem _ hq'))

/-- C8: when every search call of a claim raises, gather_evidence returns
the bundle with search_successful = false and no evidence items instead of
raising, and — when the plan came from the planning oracle — the claim
pipeline still proceeds into verdict synthesis with that no-evidence
bundle. -/
theorem gather_evidence_all_searches_fail (o : Oracles) (t : ℝ) (claim : Claim)
    (plan : List QueryItem)
    (hfail : ∀ q ∈ plan.take 6, ∃ e, o.search q.query = .error e) :
    gather_evidence o claim plan = .ok noEvidenceBundle ∧
    (o.planLLM claim = .ok (some plan) →
      processClaim o t claim = (synthesize_verdict o t claim noEvidenceBundle).map
        (fun vr => { claim := claim, query_plan := plan, verdict := vr.verdict,
                     evidence_strength := vr.evidence_strength })) := by
  have hg : gather_evidence o claim plan = .ok noEvidenceBundle := by
    unfold gather_evidence
    rw [foldl_search_all_fail o (plan.take 6) [] hfail]
    rfl
  refine ⟨hg, fun hplan => ?_⟩
  have hcq : create_query_plan o claim = .ok plan := by
    unfold create_query_plan
    rw [hplan]
    rfl
  rw [processClaim, hcq]
  simp only [bindE_ok]
  rw [hg]
  simp only [bindE_ok]
  cases hsv : synthesize_verdict o t claim noEvidenceBundle with
  | error e => rfl
  | ok vr => rfl

theorem gather_evidence_all_searches_fail_witness :
    gather_evidence parseFailOracles claimOne [{ query := "sky color" }] =
      .ok noEvidenceBundle :=
  (gather_evidence_all_searches_fail parseFailOracles CALIBRATION_TEMPERATURE claimOne
    [{ query := "sky color" }] (fun _ _ => ⟨"search down", rfl⟩)).1

/-! ## C1: exception isolation across claims

The per-claim loop of TattvaAgent.process runs inside a single try block
whose handler logs the error and re-raises (lines 173-181): there is no
per-claim handler, so an exception from any oracle call inside one claim's
pipeline aborts the processing of every claim. -/

/-- Oracles for which the planning call raises on claim "c1" only, every
search raises, and the remaining LLM responses are unparseable. -/
def abortingOracles : Oracles where
  planLLM := fun c => if c.id = "c1" then .error "boom" else .ok (some [])
  search := fun _ => .error "no network"
  evalLLM := fun _ _ => .ok none
  verdictLLM := fun _ _ => .ok none

/-- C1 counterexample: with an oracle that raises only inside the first
claim's query planning, the second claim's pipeline alone would succeed,
yet the orchestrator loop aborts with the exception and produces no
processed-claim list at all — the claims are not processed independently
and the second claim never reaches a Scored state. -/
theorem claim_failure_aborts_siblings :
    processAllClaims abortingOracles CALIBRATION_TEMPERATURE [claimOne, claimTwo] =
      .error "boom" ∧
    isOkE (processClaim abortingOracles CALIBRATION_TEMPERATURE claimTwo) = true := by
  exact ⟨rfl, rfl⟩

lemma gather_evidence_isOk (o : Oracles) (claim : Claim) (plan : List QueryItem)
    (heval : ∀ rs, ∃ x, o.evalLLM claim rs = .ok x) :
    ∃ ev, gather_evidence o claim plan = .ok ev := by
  simp only [gather_evidence]
  split
  · exact ⟨_, rfl⟩
  · obtain ⟨x, hx⟩ := heval _
    rw [hx]
    cases x with
    | none => exact ⟨_, rfl⟩
    | some ev => exact ⟨_, rfl⟩

lemma synthesize_verdict_isOk (o : Oracles) (t : ℝ) (claim : Claim) (ev : EvidenceBundle)
    (hverd : ∃ x, o.verdictLLM claim ev = .ok x) :
    ∃ vr, synthesize_verdict o t claim ev = .ok vr := by
  obtain ⟨x, hx⟩ := hverd
  unfold synthesize_verdict
  rw [hx]
  cases x with
  | none => exact ⟨_, rfl⟩
  | some vj => exact ⟨_, rfl⟩

lemma processClaim_isOk (o : Oracles) (t : ℝ) (claim : Claim)
    (hplan : ∃ x, o.planLLM claim = .ok x)
    (heval : ∀ rs, ∃ x, o.evalLLM claim rs = .ok x)
    (hverd : ∀ ev, ∃ x, o.verdictLLM claim ev = .ok x) :
    ∃ pc, processClaim o t claim = .ok pc ∧ pc.claim = claim := by
  obtain ⟨x, hx⟩ := hplan
  have hcq : create_query_plan o claim = .ok (x.getD []) := by
    unfold create_query_plan
    rw [hx]
  obtain ⟨ev, hev⟩ := gather_evidence_isOk o claim (x.getD []) heval
  obtain ⟨vr, hvr⟩ := synthesize_verdict_isOk o t claim ev (hverd ev)
  refine ⟨{ claim := claim, query_plan := x.getD [], verdict := vr.verdict,
            evidence_strength := vr.evidence_strength }, ?_, rfl⟩
  rw [processClaim, hcq]
  simp only [bindE_ok]
  rw [hev]
  simp only [bindE_ok]
  rw [hvr]
  simp only [bindE_ok]
  rfl

/-- C1 amended: the per-claim fallbacks only isolate unparseable oracle
output, not raised exceptions — whenever no oracle call raises (each call
returns, possibly with unparseable content, and searches may still raise),
every claim is processed and appears in order in the processed list. -/
theorem processAllClaims_complete_when_no_raise (o : Oracles) (t : ℝ) (claims : List Claim)
    (hplan : ∀ c, ∃ x, o.planLLM c = .ok x)
    (heval : ∀ c rs, ∃ x, o.evalLLM c rs = .ok x)
    (hverd : ∀ c ev, ∃ x, o.verdictLLM c ev = .ok x) :
    (processAllClaims o t claims).toOption.map (fun pcs => pcs.map (fun pc => pc.claim)) =
      some claims := by
  induction claims with
  | nil => rfl
  | cons c cs ih =>
    obtain ⟨pc, hpc, hpcc⟩ := processClaim_isOk o t c (hplan c) (heval c) (hverd c)
    obtain ⟨pcs, hpcs, hmap⟩ : ∃ pcs, processAllClaims o t cs = .ok pcs ∧
        pcs.map (fun pc => pc.claim) = cs := by
      cases hx : processAllClaims o t cs with
      | error e =>
        rw [hx] at ih
        simp [Except.toOption] at ih
      | ok pcs =>
        rw [hx] at ih
        simp [Except.toOption] at ih
        exact ⟨pcs, rfl, ih⟩
    rw [processAllClaims, hpc]
    simp only [bindE_ok]
    rw [hpcs]
    simp only [bindE_ok, pureE]
    simp [Except.toOption, hpcc, hmap]

theorem processAllClaims_complete_witness :
    isOkE (processAllClaims parseFailOracles CALIBRATION_TEMPERATURE [claimOne, claimTwo]) =
      true := by
  have h := processAllClaims_complete_when_no_raise parseFailOracles CALIBRATION_TEMPERATURE
    [claimOne, claimTwo] (fun _ => ⟨some [], rfl⟩) (fun _ _ => ⟨none, rfl⟩)
    (fun _ _ => ⟨none, rfl⟩)
  cases hx : processAllClaims parseFailOracles CALIBRATION_TEMPERATURE [claimOne, claimTwo] with
  | error e =>
    rw [hx] at h
    exact absurd h (by simp [Except.toOption])
  | ok pcs => rfl

/-! ## HTTP endpoint (app/main.py lines 43-151)

Embedding of the fact_check handler body: validated input in hand, the
handler checks the upstream status and the transcript text, runs the agent
(whose outcome — a report or a raised exception — is a parameter), and in
every branch sets response.status_code = 200; every error branch returns a
dict with status "error", a message, and the request id.  The Supabase
log_event calls swallow their own failures and are omitted. -/

/-- The two fields of TattvaInput the handler branches on. -/
structure FCInput where
  status : String
  transcript_text : String
deriving DecidableEq

/-- A response body: either the error dict `{"status": "error", "message":
..., "request_id": ...}` or the agent report with the request id added. -/
inductive FCBody (A : Type) where
  | error (message : String) (request_id : String)
  | result (value : A) (request_id : String)
deriving DecidableEq

/-- An HTTP response: status code plus JSON body. -/
structure FCResponse (A : Type) where
  status_code : ℕ
  body : FCBody A
deriving DecidableEq

/-- The fact_check handler. -/
def fact_check {A : Type} (input : FCInput) (agent_result : Except String A)
    (request_id : String) : FCResponse A :=
  if input.status ≠ "Success" then
    { status_code := 200,
      body := .error ("Input status is " ++ input.status ++ ", expected \x27Success\x27")
        request_id }
  else if input.transcript_text = "" then
    { status_code := 200, body := .error "Transcript text is empty" request_id }
  else
    match agent_result with
    | .ok result => { status_code := 200, body := .result result request_id }
    | .error e =>
      { status_code := 200, body := .error ("Processing error: " ++ e) request_id }

/-- C10: every request reaching the fact_check handler is answered with
HTTP status 200 — upstream-status validation failures, empty-transcript
rejections and internal processing exceptions included — and every error
path produces a body with status "error", a message, and the request
identifier, rather than an HTTP error status. -/
theorem fact_check_always_200 {A : Type} (i : FCInput) (r : Except String A)
    (rid : String) :
    (fact_check i r rid).status_code = 200 ∧
    ((i.status ≠ "Success" ∨ i.transcript_text = "" ∨ ∃ e, r = .error e) →
      ∃ m, (fact_check i r rid).body = .error m rid) := by
  unfold fact_check
  by_cases h1 : i.status = "Success"
  · rw [if_neg (not_not_intro h1)]
    by_cases h2 : i.transcript_text = ""
    · rw [if_pos h2]
      exact ⟨rfl, fun _ => ⟨_, rfl⟩⟩
    · rw [if_neg h2]
      cases r with
      | ok v =>
        refine ⟨rfl, fun hdis => ?_⟩
        rcases hdis with h | h | ⟨e, he⟩
        · exact absurd h1 h
        · exact absurd h h2
        · exact Except.noConfusion he
      | error e => exact ⟨rfl, fun _ => ⟨_, rfl⟩⟩
  · rw [if_pos h1]
    exact ⟨rfl, fun _ => ⟨_, rfl⟩⟩

theorem fact_check_always_200_witness :
    (fact_check ({ status := "Failed", transcript_text := "some text" } : FCInput)
      (.ok (0 : ℕ)) "req-1").status_code = 200 ∧
    ∃ m, (fact_check ({ status := "Failed", transcript_text := "some text" } : FCInput)
      (.ok (0 : ℕ)) "req-1").body = .error m "req-1" :=
  ⟨(fact_check_always_200 _ _ _).1,
   (fact_check_always_200 _ _ _).2 (Or.inl (by decide))⟩

end Tattva
